import Mathlib

/-!
Shallow embedding of the concurrency core of the dioxus desktop crate
(packages/desktop/src/desktop_context.rs and packages/desktop/src/webview.rs):
the EditQueue long-poll rendezvous, the slab-backed window-scoped event
handler registry, the drag window operation, and the inbound ipc handler.

Byte payloads (Rust Vec of u8) are modelled as List Nat; a responder
capability (wry RequestAsyncResponder) is identified by a Nat; calling
respond on a responder is modelled as emitting a Delivery record.
-/

namespace DioxusDesktop

/-! ## EditQueue (desktop_context.rs, lines 56 to 91)

The Rust struct holds queue : Arc Mutex (Vec (Vec u8)) and
responder : Arc Mutex (Option RequestAsyncResponder).  The sequential model
below gives the effect of one whole call; index 0 of the queue list is the
oldest entry, the list end is the most recently pushed entry, matching Vec
push and pop. -/

structure EditQueue where
  queue : List (List Nat)
  responder : Option Nat
deriving DecidableEq

structure Delivery where
  responder : Nat
  bytes : List Nat
deriving DecidableEq

/-- EditQueue handle_request: lock the queue; if pop yields bytes, respond
with them; otherwise store the responder in the responder slot.  Vec pop
removes and returns the last (most recently pushed) element. -/
def handle_request (self : EditQueue) (responder : Nat) :
    EditQueue × Option Delivery :=
  match self.queue.getLast? with
  | some bytes => ({ self with queue := self.queue.dropLast }, some ⟨responder, bytes⟩)
  | none => ({ self with responder := some responder }, none)

/-- EditQueue add_edits: lock the responder slot; if a responder is waiting,
take it and respond with the edits; otherwise push the edits onto the queue. -/
def add_edits (self : EditQueue) (edits : List Nat) :
    EditQueue × Option Delivery :=
  match self.responder with
  | some r => ({ self with responder := none }, some ⟨r, edits⟩)
  | none => ({ self with queue := self.queue ++ [edits] }, none)

/-! ## Interleaving machine for one concurrent handle_request and add_edits

Both Rust methods hold their first Mutex guard until the end of the
function body (the guard binding lives to the end of the function), and
acquire the second Mutex only inside the else branch.  The machine below
makes the lock acquisitions explicit: a step that needs a held lock is
disabled.  The second acquisition together with the guarded mutation is one
step, because its guard is a temporary dropped at the end of the statement
and only the acquisition can block. -/

/-- Program counter of the thread executing EditQueue handle_request. -/
inductive HrPc
  /-- about to execute the lock call on the queue Mutex -/
  | start
  /-- holds the queue lock; about to pop and branch -/
  | branch
  /-- backlog was empty; about to lock the responder slot and store -/
  | store
  /-- about to drop the queue lock guard at the end of the function -/
  | unlock
  | done
deriving DecidableEq

/-- Program counter of the thread executing EditQueue add_edits. -/
inductive AePc
  /-- about to execute the lock call on the responder Mutex -/
  | start
  /-- holds the responder lock; about to take and branch -/
  | branch
  /-- no waiting responder; about to lock the queue and push -/
  | push
  /-- about to drop the responder lock guard at the end of the function -/
  | unlock
  | done
deriving DecidableEq

structure RaceState where
  queueLock : Bool
  respLock : Bool
  queue : List (List Nat)
  responder : Option Nat
  hrPc : HrPc
  aePc : AePc
  deliveries : List Delivery
deriving DecidableEq

/-- One step of the thread running handle_request with responder argument r;
none when the thread is blocked on a held lock or already finished. -/
def stepHr (r : Nat) (s : RaceState) : Option RaceState :=
  match s.hrPc with
  | .start => if s.queueLock then none else some { s with queueLock := true, hrPc := .branch }
  | .branch =>
    match s.queue.getLast? with
    | some bytes =>
      some { s with
              queue := s.queue.dropLast
              deliveries := s.deliveries ++ [⟨r, bytes⟩]
              hrPc := .unlock }
    | none => some { s with hrPc := .store }
  | .store => if s.respLock then none else some { s with responder := some r, hrPc := .unlock }
  | .unlock => some { s with queueLock := false, hrPc := .done }
  | .done => none

/-- One step of the thread running add_edits with payload edits; none when
the thread is blocked on a held lock or already finished. -/
def stepAe (edits : List Nat) (s : RaceState) : Option RaceState :=
  match s.aePc with
  | .start => if s.respLock then none else some { s with respLock := true, aePc := .branch }
  | .branch =>
    match s.responder with
    | some r =>
      some { s with
              responder := none
              deliveries := s.deliveries ++ [⟨r, edits⟩]
              aePc := .unlock }
    | none => some { s with aePc := .push }
  | .push => if s.queueLock then none else some { s with queue := s.queue ++ [edits], aePc := .unlock }
  | .unlock => some { s with respLock := false, aePc := .done }
  | .done => none

/-- Initial state: empty backlog, no stored responder, both locks free, one
thread entering handle_request and one entering add_edits. -/
def raceInit : RaceState := ⟨false, false, [], none, .start, .start, []⟩

/-- The configuration reached by the schedule hr, ae, hr, ae from raceInit:
handle_request holds the queue lock and waits for the responder lock, while
add_edits holds the responder lock and waits for the queue lock. -/
def deadState : RaceState := ⟨true, true, [], none, .store, .push, []⟩

end DioxusDesktop

namespace DioxusDesktop

/-! ## Slab (the slab crate, the dependency backing WindowEventHandlers)

Model of slab Slab with entries, len, and next (the head of the free list).
insert takes the key from next: it appends when next equals the length and
otherwise fills the vacant slot at next, advancing next to the slot that
vacant entry recorded.  try_remove marks the slot vacant, pointing at the
previous free head, and makes the removed key the new free head, so the key
is the first to be reissued.  The fallback arm of insert is unreachable for
slabs produced through this interface (the crate panics there). -/

inductive SlabEntry (α : Type)
  | vacant (next : Nat)
  | occupied (val : α)
deriving DecidableEq

structure Slab (α : Type) where
  entries : List (SlabEntry α)
  len : Nat
  next : Nat
deriving DecidableEq

def Slab.empty {α : Type} : Slab α := ⟨[], 0, 0⟩

def Slab.insert {α : Type} (s : Slab α) (val : α) : Slab α × Nat :=
  let key := s.next
  if key = s.entries.length then
    ({ entries := s.entries ++ [.occupied val], len := s.len + 1, next := key + 1 }, key)
  else
    match s.entries[key]? with
    | some (.vacant nf) =>
      ({ entries := s.entries.set key (.occupied val), len := s.len + 1, next := nf }, key)
    | _ => (s, key)

def Slab.try_remove {α : Type} (s : Slab α) (key : Nat) : Slab α × Option α :=
  match s.entries[key]? with
  | some (.occupied val) =>
    ({ entries := s.entries.set key (.vacant s.next), len := s.len - 1, next := key }, some val)
  | _ => (s, none)

def Slab.get {α : Type} (s : Slab α) (key : Nat) : Option α :=
  match s.entries[key]? with
  | some (.occupied val) => some val
  | _ => none

/-- Iteration in key order, skipping vacant slots, yielding key and value
pairs, as the slab iterator used by the dispatch loop does. -/
def Slab.iterGo {α : Type} : List (SlabEntry α) → Nat → List (Nat × α)
  | [], _ => []
  | .occupied val :: rest, key => (key, val) :: Slab.iterGo rest (key + 1)
  | .vacant _ :: rest, key => Slab.iterGo rest (key + 1)

def Slab.iter {α : Type} (s : Slab α) : List (Nat × α) :=
  Slab.iterGo s.entries 0

/-- The slot named by next is not occupied.  This holds for every slab
reachable through empty, insert and try_remove, and is the part of the slab
free-list invariant that key freshness needs. -/
def Slab.wfAtNext {α : Type} (s : Slab α) : Bool :=
  match s.entries[s.next]? with
  | some (.occupied _) => false
  | _ => true

/-! ## WindowEventHandlers (desktop_context.rs, lines 400 to 502)

The registry is Rc RefCell (Slab WryWindowEventHandlerInner).  A callback
closure is modelled by an identity plus what it does to the registry when
invoked: nothing, or a reentrant add, or a reentrant remove.  The reentrant
cases model a callback that calls WindowEventHandlers add or remove, each
of which executes borrow_mut on the registry RefCell; during apply_event
the RefCell is already mutably borrowed for the whole iteration, so that
nested borrow_mut panics (a BorrowMutError), which the dispatch model
reports as a panic flag. -/

inductive CbAction
  /-- the callback does not touch the registry -/
  | inert
  /-- the callback reenters WindowEventHandlers add -/
  | addHandler (window_id : Nat) (cb : Nat)
  /-- the callback reenters WindowEventHandlers remove -/
  | removeHandler (key : Nat)
deriving DecidableEq

structure Callback where
  cbId : Nat
  action : CbAction
deriving DecidableEq

structure WryWindowEventHandlerInner where
  window_id : Nat
  handler : Callback
deriving DecidableEq

/-- The tao event fed to apply_event.  Besides WindowEvent, several
variants of the tao Event enumeration also carry a window id: UserEvent
wraps this crate's UserWindowEvent, whose second component is a WindowId
(the payload in front of it is opaque to the dispatch and modelled as a
Nat); RedrawRequested carries a WindowId; MenuEvent carries an optional
WindowId.  The variants that carry no window id at all (NewEvents,
MainEventsCleared, DeviceEvent, and the rest) are collapsed into the
constructor other, since the dispatch treats them all alike. -/
inductive Event
  | windowEvent (window_id : Nat)
  | userEvent (data : Nat) (window_id : Nat)
  | redrawRequested (window_id : Nat)
  | menuEvent (window_id : Option Nat)
  | other
deriving DecidableEq

/-- The window id an event carries, if any: the WindowId field of
WindowEvent, RedrawRequested or MenuEvent, or the WindowId inside the
UserWindowEvent carried by UserEvent. -/
def eventWindowId : Event → Option Nat
  | .windowEvent window_id => some window_id
  | .userEvent _ window_id => some window_id
  | .redrawRequested window_id => some window_id
  | .menuEvent window_id => window_id
  | .other => none

/-- The guard of WryWindowEventHandlerInner apply_event: the code matches
only on the WindowEvent constructor and skips the callback exactly when
that variant carries a window id differing from the id the listener was
registered with; every other variant falls through to the callback,
whether or not it carries a window id. -/
def eventAppliesTo (event : Event) (self_window_id : Nat) : Bool :=
  match event with
  | .windowEvent window_id => window_id == self_window_id
  | _ => true

/-- WindowEventHandlers add: insert the entry into the slab and wrap the
returned key as the WryEventHandlerId. -/
def windowEventHandlers_add (handlers : Slab WryWindowEventHandlerInner)
    (window_id : Nat) (handler : Callback) : Slab WryWindowEventHandlerInner × Nat :=
  Slab.insert handlers ⟨window_id, handler⟩

/-- WindowEventHandlers remove: try_remove the key from the slab, ignoring
whether an entry was present. -/
def windowEventHandlers_remove (handlers : Slab WryWindowEventHandlerInner)
    (id : Nat) : Slab WryWindowEventHandlerInner :=
  (Slab.try_remove handlers id).1

/-- The loop body of WindowEventHandlers apply_event over the iterator of
the slab, with the accumulator of keys whose callbacks were invoked.  The
Bool result is the panic flag: the first invoked callback that reenters the
registry hits the nested borrow_mut and panics, aborting the iteration. -/
def applyEventGo (event : Event) :
    List (Nat × WryWindowEventHandlerInner) → List Nat → Bool × List Nat
  | [], invoked => (false, invoked.reverse)
  | (key, entry) :: rest, invoked =>
    if eventAppliesTo event entry.window_id then
      match entry.handler.action with
      | .inert => applyEventGo event rest (key :: invoked)
      | _ => (true, (key :: invoked).reverse)
    else applyEventGo event rest invoked

/-- WindowEventHandlers apply_event: borrow the slab mutably for the whole
loop and run every entry through its scope guard. -/
def windowEventHandlers_apply_event (handlers : Slab WryWindowEventHandlerInner)
    (event : Event) : Bool × List Nat :=
  applyEventGo event (Slab.iter handlers) []

/-- WryEventHandler remove calls WindowEventHandlers remove with the stored
id. -/
def wryEventHandler_remove (handlers : Slab WryWindowEventHandlerInner)
    (id : Nat) : Slab WryWindowEventHandlerInner :=
  windowEventHandlers_remove handlers id

/-- The Drop impl of WryEventHandler runs the same removal on every exit
path of the owning scope. -/
def wryEventHandler_drop (handlers : Slab WryWindowEventHandlerInner)
    (id : Nat) : Slab WryWindowEventHandlerInner :=
  windowEventHandlers_remove handlers id

/-- Every occupied entry of the registry carries a callback that does not
reenter the registry. -/
def allInert (handlers : Slab WryWindowEventHandlerInner) : Bool :=
  handlers.entries.all fun e =>
    match e with
    | .occupied entry =>
      match entry.handler.action with
      | CbAction.inert => true
      | _ => false
    | .vacant _ => true

/-! ## DesktopService drag (desktop_context.rs, lines 224 to 231)

The method reads window fullscreen and, when the window is not fullscreen,
calls window drag_window and unwraps the result.  The OS call is an
external collaborator, so its outcome is a field of the model; the Except
error value stands for a panic of the unwrap. -/

inductive DragResult
  | ok
  | err
deriving DecidableEq

structure DragWindow where
  /-- whether window fullscreen returns some variant -/
  fullscreen : Bool
  /-- what window drag_window would return if called -/
  drag_window : DragResult
deriving DecidableEq

def drag (window : DragWindow) : Except Unit Unit :=
  if window.fullscreen then Except.ok ()
  else
    match window.drag_window with
    | .ok => Except.ok ()
    | .err => Except.error ()

/-! ## The ipc handler closure (webview.rs, lines 53 to 58)

The closure receives the payload string, decodes it with the external json
decoder, and on success sends one UserWindowEvent with the Ipc variant and
the id of the window to the event loop proxy; on failure nothing is sent.
The model returns the list of events handed to the proxy and is generic in
the message type and the decoder, both external to this repository. -/

inductive EventData (M : Type)
  | poll
  | ipc (message : M)
  | newWindow
  | closeWindow

structure UserWindowEvent (M : Type) where
  data : EventData M
  window_id : Nat

def ipc_handler {M : Type} (decode : String → Option M) (window_id : Nat)
    (payload : String) : List (UserWindowEvent M) :=
  match decode payload with
  | some message => [⟨EventData.ipc message, window_id⟩]
  | none => []

/-! ## Concrete registries used by witnesses and counterexamples -/

/-- A registry with one handler scoped to window 1 and one scoped to
window 2, both with callbacks that leave the registry alone. -/
def scopeWitnessReg : Slab WryWindowEventHandlerInner :=
  (windowEventHandlers_add
    (windowEventHandlers_add Slab.empty 1 ⟨10, CbAction.inert⟩).1
    2 ⟨20, CbAction.inert⟩).1

/-- A registry holding a single handler, whose id 0 is held by a live
external handle. -/
def reuseWitnessSlab : Slab WryWindowEventHandlerInner :=
  (windowEventHandlers_add Slab.empty 5 ⟨1, CbAction.inert⟩).1

/-- A registry holding a single handler whose callback registers another
handler from inside the dispatch. -/
def reentrantReg : Slab WryWindowEventHandlerInner :=
  (windowEventHandlers_add Slab.empty 3 ⟨7, CbAction.addHandler 3 8⟩).1

/-! ## Helper lemmas on lists, the slab, and the dispatch loop -/

theorem list_getElem?_mem {α : Type} (l : List α) :
    ∀ (n : Nat) (a : α), l[n]? = some a → a ∈ l := by
  induction l with
  | nil => intro n a h; simp at h
  | cons x xs ih =>
    intro n a h
    cases n with
    | zero =>
      rw [List.getElem?_cons_zero] at h
      injection h with h2
      subst h2
      simp
    | succ n =>
      rw [List.getElem?_cons_succ] at h
      exact List.mem_cons_of_mem x (ih n a h)

theorem list_all_mem {α : Type} (p : α → Bool) :
    ∀ (l : List α), l.all p = true → ∀ x ∈ l, p x = true := by
  intro l
  induction l with
  | nil => intro _ x hx; exact absurd hx (List.not_mem_nil x)
  | cons y ys ih =>
    intro h x hx
    rw [List.all_cons, Bool.and_eq_true] at h
    rcases List.mem_cons.mp hx with rfl | hx2
    · exact h.1
    · exact ih h.2 x hx2

theorem mem_iterGo {α : Type} (l : List (SlabEntry α)) :
    ∀ (n k : Nat) (v : α),
      ((k, v) ∈ Slab.iterGo l n ↔ ∃ i, k = n + i ∧ l[i]? = some (.occupied v)) := by
  induction l with
  | nil => intro n k v; simp [Slab.iterGo]
  | cons e rest ih =>
    intro n k v
    cases e with
    | occupied val =>
      simp only [Slab.iterGo, List.mem_cons, Prod.mk.injEq, ih]
      constructor
      · rintro (⟨hk, hv⟩ | ⟨i, hk, hget⟩)
        · exact ⟨0, by omega, by simp [hv]⟩
        · exact ⟨i + 1, by omega, by simpa using hget⟩
      · rintro ⟨i, hk, hget⟩
        cases i with
        | zero =>
          left
          rw [List.getElem?_cons_zero] at hget
          injection hget with hget
          injection hget with hget
          exact ⟨by omega, hget.symm⟩
        | succ i =>
          right
          exact ⟨i, by omega, by simpa using hget⟩
    | vacant nf =>
      simp only [Slab.iterGo, ih]
      constructor
      · rintro ⟨i, hk, hget⟩
        exact ⟨i + 1, by omega, by simpa using hget⟩
      · rintro ⟨i, hk, hget⟩
        cases i with
        | zero => rw [List.getElem?_cons_zero] at hget; simp at hget
        | succ i => exact ⟨i, by omega, by simpa using hget⟩

theorem slab_mem_iter_iff_get {α : Type} (s : Slab α) (k : Nat) (v : α) :
    (k, v) ∈ Slab.iter s ↔ Slab.get s k = some v := by
  rw [Slab.iter, mem_iterGo]
  constructor
  · rintro ⟨i, hk, hget⟩
    have hk0 : k = i := by omega
    subst hk0
    simp [Slab.get, hget]
  · intro h
    refine ⟨k, by omega, ?_⟩
    unfold Slab.get at h
    cases hg : s.entries[k]? with
    | none => rw [hg] at h; simp at h
    | some e =>
      rw [hg] at h
      cases e with
      | vacant nf => simp at h
      | occupied val =>
        simp only [Option.some.injEq] at h
        rw [h]

theorem slab_get_try_remove_self {α : Type} (s : Slab α) (key : Nat) :
    Slab.get (Slab.try_remove s key).1 key = none := by
  cases hg : s.entries[key]? with
  | none => simp [Slab.try_remove, Slab.get, hg]
  | some e =>
    cases e with
    | vacant nf => simp [Slab.try_remove, Slab.get, hg]
    | occupied v => simp [Slab.try_remove, Slab.get, hg, List.getElem?_set_self']

theorem slab_insert_snd {α : Type} (s : Slab α) (val : α) :
    (Slab.insert s val).2 = s.next := by
  unfold Slab.insert
  dsimp only
  split
  · rfl
  · split <;> rfl

theorem eventAppliesTo_iff (event : Event) (w : Nat) :
    eventAppliesTo event w = true ↔
      ((∀ u, event ≠ Event.windowEvent u) ∨ event = Event.windowEvent w) := by
  cases event with
  | windowEvent id =>
    simp only [eventAppliesTo, beq_iff_eq, Event.windowEvent.injEq]
    constructor
    · intro h
      exact Or.inr h
    · rintro (h | h)
      · exact absurd rfl (h id)
      · exact h
  | userEvent d id => simp [eventAppliesTo]
  | redrawRequested id => simp [eventAppliesTo]
  | menuEvent o => simp [eventAppliesTo]
  | other => simp [eventAppliesTo]

theorem applyEventGo_inert (event : Event) :
    ∀ (l : List (Nat × WryWindowEventHandlerInner)) (acc : List Nat),
      (∀ p ∈ l, p.2.handler.action = CbAction.inert) →
      applyEventGo event l acc =
        (false,
          acc.reverse ++
            (l.filter fun p => eventAppliesTo event p.2.window_id).map Prod.fst) := by
  intro l
  induction l with
  | nil => intro acc h; simp [applyEventGo]
  | cons p rest ih =>
    intro acc h
    obtain ⟨key, entry⟩ := p
    have hact : entry.handler.action = CbAction.inert := h (key, entry) (by simp)
    have hrest : ∀ p ∈ rest, p.2.handler.action = CbAction.inert :=
      fun p hp => h p (List.mem_cons_of_mem _ hp)
    by_cases happ : eventAppliesTo event entry.window_id = true
    · simp [applyEventGo, happ, hact, ih _ hrest, List.filter_cons]
    · simp [applyEventGo, happ, ih _ hrest, List.filter_cons]

theorem mem_applyEventGo (event : Event) :
    ∀ (l : List (Nat × WryWindowEventHandlerInner)) (acc : List Nat) (k : Nat),
      k ∈ (applyEventGo event l acc).2 → k ∈ acc ∨ ∃ en, (k, en) ∈ l := by
  intro l
  induction l with
  | nil =>
    intro acc k h
    simp [applyEventGo] at h
    exact Or.inl h
  | cons p rest ih =>
    intro acc k h
    obtain ⟨key, entry⟩ := p
    by_cases happ : eventAppliesTo event entry.window_id = true
    · cases hact : entry.handler.action with
      | inert =>
        simp only [applyEventGo, happ, if_true, hact] at h
        rcases ih (key :: acc) k h with hk | ⟨en, hin⟩
        · rcases List.mem_cons.mp hk with rfl | hk2
          · exact Or.inr ⟨entry, by simp⟩
          · exact Or.inl hk2
        · exact Or.inr ⟨en, List.mem_cons_of_mem _ hin⟩
      | addHandler w cb =>
        simp only [applyEventGo, happ, if_true, hact] at h
        simp only [List.reverse_cons, List.mem_append, List.mem_reverse,
          List.mem_singleton] at h
        rcases h with hk2 | rfl
        · exact Or.inl hk2
        · exact Or.inr ⟨entry, by simp⟩
      | removeHandler rk =>
        simp only [applyEventGo, happ, if_true, hact] at h
        simp only [List.reverse_cons, List.mem_append, List.mem_reverse,
          List.mem_singleton] at h
        rcases h with hk2 | rfl
        · exact Or.inl hk2
        · exact Or.inr ⟨entry, by simp⟩
    · simp only [applyEventGo, happ, if_false] at h
      rcases ih acc k h with hk | ⟨en, hin⟩
      · exact Or.inl hk
      · exact Or.inr ⟨en, List.mem_cons_of_mem _ hin⟩

theorem applyEventGo_panic_iff (event : Event) :
    ∀ (l : List (Nat × WryWindowEventHandlerInner)) (acc : List Nat),
      ((applyEventGo event l acc).1 = true ↔
        ∃ p ∈ l, eventAppliesTo event p.2.window_id = true ∧
          p.2.handler.action ≠ CbAction.inert) := by
  intro l
  induction l with
  | nil => intro acc; simp [applyEventGo]
  | cons p rest ih =>
    intro acc
    obtain ⟨key, entry⟩ := p
    by_cases happ : eventAppliesTo event entry.window_id = true
    · cases hact : entry.handler.action with
      | inert => simp [applyEventGo, happ, hact, ih]
      | addHandler w cb => simp [applyEventGo, happ, hact]
      | removeHandler rk => simp [applyEventGo, happ, hact]
    · simp [applyEventGo, happ, ih]

/-! ## Claim theorems for the event handler registry and the boundary -/

/-- Claim C4 as amended: dispatching an event through WindowEventHandlers
apply_event invokes a registered handler exactly when the event is not a
WindowEvent carrying a different window id.  A WindowEvent scoped to one
window never invokes, and so never changes the call count of, a handler
registered for a different window; but every non-WindowEvent variant
reaches every handler, including the variants that do carry a window id
(UserEvent wrapping UserWindowEvent, RedrawRequested, MenuEvent), because
the guard matches only on WindowEvent.  The registry is assumed to hold
only callbacks that leave the registry alone, which is the situation the
claim describes. -/
theorem apply_event_scope_iff (handlers : Slab WryWindowEventHandlerInner)
    (event : Event) (hinert : allInert handlers = true) (key : Nat) :
    (windowEventHandlers_apply_event handlers event).1 = false ∧
      (key ∈ (windowEventHandlers_apply_event handlers event).2 ↔
        ∃ entry, Slab.get handlers key = some entry ∧
          ((∀ u, event ≠ Event.windowEvent u) ∨
            event = Event.windowEvent entry.window_id)) := by
  have hall : ∀ p ∈ Slab.iter handlers, p.2.handler.action = CbAction.inert := by
    intro p hp
    obtain ⟨k, en⟩ := p
    have hget : Slab.get handlers k = some en := (slab_mem_iter_iff_get handlers k en).1 hp
    unfold Slab.get at hget
    cases hg : handlers.entries[k]? with
    | none => rw [hg] at hget; simp at hget
    | some e =>
      rw [hg] at hget
      cases e with
      | vacant nf => simp at hget
      | occupied v =>
        simp only [Option.some.injEq] at hget
        subst hget
        have hmem : SlabEntry.occupied v ∈ handlers.entries := list_getElem?_mem _ _ _ hg
        have hf := list_all_mem _ handlers.entries hinert _ hmem
        have hf2 : (match v.handler.action with
            | CbAction.inert => true
            | _ => false) = true := hf
        cases hact : v.handler.action with
        | inert => rfl
        | addHandler w cb => rw [hact] at hf2; simp at hf2
        | removeHandler rk => rw [hact] at hf2; simp at hf2
  unfold windowEventHandlers_apply_event
  rw [applyEventGo_inert event _ _ hall]
  refine ⟨rfl, ?_⟩
  simp only [List.reverse_nil, List.nil_append]
  rw [List.mem_map]
  constructor
  · rintro ⟨⟨k, en⟩, hmem, rfl⟩
    have hf := List.of_mem_filter hmem
    have hl : (k, en) ∈ Slab.iter handlers := List.mem_of_mem_filter hmem
    exact ⟨en, (slab_mem_iter_iff_get _ _ _).1 hl,
      (eventAppliesTo_iff event en.window_id).1 hf⟩
  · rintro ⟨en, hget, hdisj⟩
    refine ⟨(key, en), ?_, rfl⟩
    rw [List.mem_filter]
    exact ⟨(slab_mem_iter_iff_get _ _ _).2 hget,
      (eventAppliesTo_iff event en.window_id).2 hdisj⟩

/-- Counterexample for claim C4: the handler under key 0 is registered for
window 1, the dispatched UserEvent carries window id 2 (the WindowId inside
UserWindowEvent), and the dispatch invokes that handler anyway, because the
guard filters only WindowEvent; so an event carrying a different window's
id does invoke the handler. -/
theorem apply_event_foreign_id_counterexample :
    Slab.get scopeWitnessReg 0 = some ⟨1, ⟨10, CbAction.inert⟩⟩ ∧
      eventWindowId (Event.userEvent 0 2) = some 2 ∧
      0 ∈ (windowEventHandlers_apply_event scopeWitnessReg (Event.userEvent 0 2)).2 := by
  decide

/-- Witness for the amended claim C4: the concrete two-window registry
satisfies the hypothesis, and the conclusion holds for the handler of
window 1 under a WindowEvent scoped to window 1. -/
theorem apply_event_scope_iff_witness :
    allInert scopeWitnessReg = true ∧
      ((windowEventHandlers_apply_event scopeWitnessReg (Event.windowEvent 1)).1 = false ∧
        (0 ∈ (windowEventHandlers_apply_event scopeWitnessReg (Event.windowEvent 1)).2 ↔
          ∃ entry, Slab.get scopeWitnessReg 0 = some entry ∧
            ((∀ u, Event.windowEvent 1 ≠ Event.windowEvent u) ∨
              Event.windowEvent 1 = Event.windowEvent entry.window_id))) :=
  ⟨by decide, apply_event_scope_iff scopeWitnessReg (Event.windowEvent 1) (by decide) 0⟩

/-- Claim C5: releasing a WryEventHandler handle, whether through its remove
method or through the Drop impl that runs on every exit path, removes its
entry from the registry, and a dispatch on the resulting registry never
invokes that entry. -/
theorem wryEventHandler_release_silences (handlers : Slab WryWindowEventHandlerInner)
    (id : Nat) :
    wryEventHandler_drop handlers id = wryEventHandler_remove handlers id ∧
      Slab.get (wryEventHandler_remove handlers id) id = none ∧
      ∀ event : Event,
        id ∉ (windowEventHandlers_apply_event (wryEventHandler_remove handlers id) event).2 := by
  refine ⟨rfl, slab_get_try_remove_self handlers id, ?_⟩
  intro event hmem
  rcases mem_applyEventGo event (Slab.iter (wryEventHandler_remove handlers id)) [] id hmem
    with h | ⟨en, hin⟩
  · simp at h
  · have hget := (slab_mem_iter_iff_get _ _ _).1 hin
    have h0 : Slab.get (wryEventHandler_remove handlers id) id = none :=
      slab_get_try_remove_self handlers id
    rw [h0] at hget
    simp at hget

/-- Counterexample for claim C6: register a handler (the external handle
receives id 0 and stays alive, its Drop never running), call the remove
method of that handle, then register another handler: the slab hands out
id 0 again even though the first handle still holds it. -/
theorem handler_id_reuse_counterexample :
    (windowEventHandlers_add Slab.empty 5 ⟨1, CbAction.inert⟩).2 = 0 ∧
      (windowEventHandlers_add
          (wryEventHandler_remove (windowEventHandlers_add Slab.empty 5 ⟨1, CbAction.inert⟩).1
            (windowEventHandlers_add Slab.empty 5 ⟨1, CbAction.inert⟩).2)
          5 ⟨2, CbAction.inert⟩).2 = 0 := by
  decide

/-- Claim C6 as amended: an id whose entry is still present in the slab is
never re-issued by an insertion; re-issue can happen only after the entry
has been removed, which a live handle can itself trigger through its remove
method. -/
theorem insert_fresh_key_of_occupied {α : Type} (s : Slab α) (k : Nat) (v val : α)
    (hwf : Slab.wfAtNext s = true) (hocc : Slab.get s k = some v) :
    (Slab.insert s val).2 ≠ k := by
  rw [slab_insert_snd]
  intro h
  subst h
  unfold Slab.wfAtNext at hwf
  unfold Slab.get at hocc
  cases hg : s.entries[s.next]? with
  | none => rw [hg] at hocc; simp at hocc
  | some e =>
    rw [hg] at hwf hocc
    cases e with
    | vacant nf => simp at hocc
    | occupied w => simp at hwf

/-- Witness for the amended claim C6: in the one-entry registry the
hypotheses hold for id 0, and the next insertion returns a different id. -/
theorem insert_fresh_key_of_occupied_witness :
    Slab.wfAtNext reuseWitnessSlab = true ∧
      Slab.get reuseWitnessSlab 0 = some ⟨5, ⟨1, CbAction.inert⟩⟩ ∧
      (Slab.insert reuseWitnessSlab ⟨6, ⟨2, CbAction.inert⟩⟩).2 ≠ 0 :=
  ⟨by decide, by decide,
    insert_fresh_key_of_occupied reuseWitnessSlab 0 ⟨5, ⟨1, CbAction.inert⟩⟩
      ⟨6, ⟨2, CbAction.inert⟩⟩ (by decide) (by decide)⟩

/-- Counterexample for claim C7: a dispatch over a registry whose single
callback registers another handler panics: the callback reenters borrow_mut
on the RefCell that apply_event holds mutably borrowed for the whole
iteration, so the dispatch aborts instead of tolerating the mutation. -/
theorem apply_event_reentrant_panic :
    (windowEventHandlers_apply_event reentrantReg Event.other).1 = true := by
  decide

/-- Claim C7 as amended: a dispatch panics through the nested borrow exactly
when some registered entry that the event applies to carries a callback that
mutates the registry; mid-dispatch mutation is never tolerated, and hence no
entry can be inserted during a dispatch pass at all. -/
theorem apply_event_panics_iff_mutating_callback
    (handlers : Slab WryWindowEventHandlerInner) (event : Event) :
    (windowEventHandlers_apply_event handlers event).1 = true ↔
      ∃ key entry, Slab.get handlers key = some entry ∧
        eventAppliesTo event entry.window_id = true ∧
        entry.handler.action ≠ CbAction.inert := by
  unfold windowEventHandlers_apply_event
  rw [applyEventGo_panic_iff]
  constructor
  · rintro ⟨⟨k, en⟩, hmem, happ, hact⟩
    exact ⟨k, en, (slab_mem_iter_iff_get _ _ _).1 hmem, happ, hact⟩
  · rintro ⟨k, en, hget, happ, hact⟩
    exact ⟨⟨k, en⟩, (slab_mem_iter_iff_get _ _ _).2 hget, happ, hact⟩

/-- Claim C8: drag on a non fullscreen window whose OS move call fails
panics through the unwrap instead of swallowing the failure, contradicting
the comment right above the call; on a fullscreen window drag is a no-op
even when the OS call would fail. -/
theorem drag_panics_on_os_error :
    drag ⟨false, DragResult.err⟩ = Except.error () ∧
      drag ⟨true, DragResult.err⟩ = Except.ok () :=
  ⟨rfl, rfl⟩

/-- Claim C9: the ipc handler forwards no event exactly when decoding the
payload fails; an event reaches the proxy exactly when the payload decodes
successfully. -/
theorem ipc_handler_sends_iff_decodes {M : Type} (decode : String → Option M)
    (window_id : Nat) (payload : String) :
    ipc_handler decode window_id payload = [] ↔ decode payload = none := by
  unfold ipc_handler
  cases h : decode payload <;> simp

/-- Counterexample for claim C2: queue the payloads a, b, c (bytes 97, 98, 99) in that
order, then handle a request: the response is c as the claim says, but the
backlog afterwards is not empty; it still holds a and b. -/
theorem handle_request_abc_counterexample :
    handle_request ⟨[[97], [98], [99]], none⟩ 7
        = (⟨[[97], [98]], none⟩, some ⟨7, [99]⟩) ∧
      (handle_request ⟨[[97], [98], [99]], none⟩ 7).1.queue ≠ [] := by
  decide

/-- Claim C2 as amended: for a queue whose backlog holds older entries followed by a
most recently added entry b, handle_request with an empty responder slot
responds with b and leaves exactly the older entries queued; only the popped
entry is removed. -/
theorem handle_request_most_recent_wins (older : List (List Nat)) (b : List Nat) (r : Nat) :
    handle_request ⟨older ++ [b], none⟩ r = (⟨older, none⟩, some ⟨r, b⟩) := by
  simp [handle_request]

/-- Claim C3: starting from an empty EditQueue, a handle_request stores the
responder, and a following add_edits with payload x delivers x to exactly
that responder, clears the responder slot, and leaves the backlog empty. -/
theorem add_edits_delivers_to_waiting_responder (r : Nat) (x : List Nat) :
    add_edits (handle_request ⟨[], none⟩ r).1 x = (⟨[], none⟩, some ⟨r, x⟩) := by
  rfl

/-- Claim C10: add_edits that finds a waiting responder leaves the backlog
unchanged, and handle_request that finds a non-empty backlog leaves the
responder slot exactly as it was (whatever it held). -/
theorem editQueue_frame_conditions :
    (∀ (q : List (List Nat)) (r : Nat) (x : List Nat),
      (add_edits ⟨q, some r⟩ x).1.queue = q) ∧
    (∀ (older : List (List Nat)) (b : List Nat) (slot : Option Nat) (r : Nat),
      (handle_request ⟨older ++ [b], slot⟩ r).1.responder = slot) := by
  constructor
  · intro q r x
    rfl
  · intro older b slot r
    simp [handle_request]

/-- Claim C1: the code can deadlock.  From the empty initial state, the
interleaving in which handle_request acquires the queue lock, add_edits
acquires the responder lock, handle_request finds the backlog empty, and
add_edits finds no stored responder, reaches a configuration where neither
thread can step: handle_request waits for the responder lock held by
add_edits, add_edits waits for the queue lock held by handle_request.
Neither call has finished and nothing was delivered, so the request never
receives the payload of the matching add_edits call. -/
theorem editQueue_concurrent_deadlock :
    ((((stepHr 1 raceInit).bind (stepAe [120])).bind (stepHr 1)).bind (stepAe [120])
        = some deadState) ∧
      stepHr 1 deadState = none ∧ stepAe [120] deadState = none ∧
      deadState.hrPc ≠ HrPc.done ∧ deadState.aePc ≠ AePc.done ∧
      deadState.deliveries = [] := by
  decide

end DioxusDesktop
